import Mathlib

/-!
# Verification development for the `auto` process supervisor core

Shallow embedding of `src/daemon_manager.py` (the process lifecycle and
restart-policy engine) and proofs about the properties its specification
states.

Modelling conventions:

* A persisted process entry is either the legacy shape (a bare integer pid)
  or the modern record shape (a JSON object).  Record fields are `Option`s
  because the Python dict may lack any key; accessors apply the same
  defaults as the Python `.get(key, default)` calls do.
* The definition-side fields (`command`, `port`, `workdir`) live in the same
  per-name dict in the state file, are read only by `load_config`, and are
  preserved unchanged by every mutation modelled here (via the
  `save_state` merge of `preserved_fields`); the embedding therefore
  projects them out and models the configuration as the list of defined
  process names.
* OS effects are oracles collected in `Env`: `alive` stands for
  `is_process_alive` (signal probe plus zombie check), `startTimeOf` for
  `get_process_start_time` (the `ps -o lstart=` query), `now` for
  `time.time()`, `spawn` for the whole spawn sequence of `start_process`
  (log-path creation, opening the log file, `subprocess.Popen`): `none`
  means that sequence raised, `some pid` that it produced a process.
* Wall-clock values (`time.time()` floats) are modelled as rationals; the
  properties proved about them do not depend on float rounding.
* The effectful state-file primitives `_load_state_file` /
  `_save_state_file` are additionally modelled as traces of filesystem
  operations (`FsOp`), which is what the atomicity and locking claims are
  about.
-/

namespace DaemonManager

/-- The modern (dict) shape of a per-process runtime record in the state
file.  Every field is optional, mirroring JSON-object key presence. -/
structure ProcRecord where
  pid : Option Int
  start_time : Option String
  explicitly_stopped : Option Bool
  restart_attempt : Option Nat
  last_restart_time : Option ℚ
  log_path : Option String
deriving Repr, DecidableEq

/-- A per-process entry of the `processes` mapping: either the legacy bare
integer pid or a record. -/
inductive ProcEntry where
  | legacyPid (pid : Int)
  | record (r : ProcRecord)
deriving Repr, DecidableEq

/-- The `processes` mapping of the state file, as returned by
`load_state`.  `none` means the name has no entry. -/
def ProcState : Type := String → Option ProcEntry

/-- Point update of the state mapping (Python `state[name] = entry`). -/
def setEntry (st : ProcState) (name : String) (e : ProcEntry) : ProcState :=
  fun n => if n = name then some e else st n

/-- OS-environment oracles for one observation instant. -/
structure Env where
  alive : Int → Bool
  startTimeOf : Int → Option String
  now : ℚ
  spawn : String → Option Int
  newLogPath : String → String

/-- `is_explicitly_stopped(name)`: `False` for a missing entry and for the
legacy int shape, else `process_state.get("explicitly_stopped", False)`. -/
def is_explicitly_stopped (st : ProcState) (name : String) : Bool :=
  match st name with
  | none => false
  | some (.legacyPid _) => false
  | some (.record r) => r.explicitly_stopped.getD false

/-- `is_our_process(pid, expected_start_time)`: false when the pid is not
alive; false when no expected start time is stored; false when the live
start time cannot be obtained; otherwise a PLAIN string equality
`actual_start_time == expected_start_time` (source line 316 — there is no
parsing or canonicalisation step). -/
def is_our_process (env : Env) (pid : Int) (expected_start_time : Option String) : Bool :=
  if ¬ env.alive pid then false
  else
    match expected_start_time with
    | none => false
    | some expected =>
      match env.startTimeOf pid with
      | none => false
      | some actual => actual == expected

/-- `get_process_status(name)`: the pid when the identity check passes,
`None` otherwise.  The legacy int shape carries no start time. -/
def get_process_status (env : Env) (st : ProcState) (name : String) : Option Int :=
  match st name with
  | none => none
  | some (.legacyPid p) => if is_our_process env p none then some p else none
  | some (.record r) =>
    match r.pid with
    | none => none
    | some p => if is_our_process env p r.start_time then some p else none

/-- `max_backoff = 2 * 60 * 60` seconds. -/
def max_backoff : Nat := 2 * 60 * 60

/-- `get_restart_backoff_seconds(name)`: 1 for a missing or legacy entry,
else `min(2 ** attempt, max_backoff)` with `attempt =
process_state.get("restart_attempt", 0)`. -/
def get_restart_backoff_seconds (st : ProcState) (name : String) : Nat :=
  match st name with
  | none => 1
  | some (.legacyPid _) => 1
  | some (.record r) => min (2 ^ r.restart_attempt.getD 0) max_backoff

/-- `get_last_restart_time(name)`: `None` for missing or legacy entries,
else the stored value. -/
def get_last_restart_time (st : ProcState) (name : String) : Option ℚ :=
  match st name with
  | none => none
  | some (.legacyPid _) => none
  | some (.record r) => r.last_restart_time

/-- `should_restart_process(name)`: never when explicitly stopped; never
when the status check returns a pid; immediately when no last restart time
is recorded; otherwise exactly when `time.time() - last_restart >=
backoff`. -/
def should_restart_process (env : Env) (st : ProcState) (name : String) : Bool :=
  if is_explicitly_stopped st name then false
  else if (get_process_status env st name).isSome then false
  else
    match get_last_restart_time st name with
    | none => true
    | some last =>
      decide ((get_restart_backoff_seconds st name : ℚ) ≤ env.now - last)

/-- `increment_restart_attempt(name)`: normalises a missing or legacy
entry to the default record, then bumps `restart_attempt` and stamps
`last_restart_time = time.time()`, and saves. -/
def increment_restart_attempt (st : ProcState) (name : String) (now : ℚ) : ProcState :=
  let base : ProcRecord :=
    match st name with
    | none =>
      { pid := none, start_time := none, explicitly_stopped := some false,
        restart_attempt := some 0, last_restart_time := none, log_path := none }
    | some (.legacyPid p) =>
      { pid := some p, start_time := none, explicitly_stopped := some false,
        restart_attempt := some 0, last_restart_time := none, log_path := none }
    | some (.record r) => r
  setEntry st name
    (.record { base with
      restart_attempt := some (base.restart_attempt.getD 0 + 1),
      last_restart_time := some now })

/-- The observable restart-attempt counter of an entry, with the same
defaults the code applies (missing entry, legacy entry or missing key all
read as 0). -/
def restart_attempt_of (st : ProcState) (name : String) : Nat :=
  match st name with
  | some (.record r) => r.restart_attempt.getD 0
  | _ => 0

/-- The state update performed by `stop_process(name, mark_explicit=True)`
after signal delivery succeeded: a legacy entry becomes
`{"pid": pid, "explicitly_stopped": True}`; a record entry gets
`explicitly_stopped = True`; a missing entry is left alone (the
`if name in state` guard). -/
def stop_process_mark (st : ProcState) (name : String) : ProcState :=
  match st name with
  | none => st
  | some (.legacyPid p) =>
    setEntry st name
      (.record { pid := some p, start_time := none, explicitly_stopped := some true,
                 restart_attempt := none, last_restart_time := none, log_path := none })
  | some (.record r) =>
    setEntry st name (.record { r with explicitly_stopped := some true })

/-- The `existing = state.get(name, {})` normalisation of `start_process`:
a missing entry becomes the empty dict, a legacy int entry becomes the
default record around its pid. -/
def start_existing_record (st : ProcState) (name : String) : ProcRecord :=
  match st name with
  | none =>
    { pid := none, start_time := none, explicitly_stopped := none,
      restart_attempt := none, last_restart_time := none, log_path := none }
  | some (.legacyPid p) =>
    { pid := some p, start_time := none, explicitly_stopped := some false,
      restart_attempt := some 0, last_restart_time := none, log_path := none }
  | some (.record r) => r

/-- The record `start_process` writes after a successful spawn of `pid`:
fresh pid and start time, `explicitly_stopped = False`, and the
`restart_attempt` / `last_restart_time` bookkeeping preserved from the
previous entry exactly as `existing.get(...)` reads it. -/
def start_new_record (env : Env) (st : ProcState) (name : String) (pid : Int) : ProcRecord :=
  { pid := some pid,
    start_time := env.startTimeOf pid,
    explicitly_stopped := some false,
    restart_attempt := some ((start_existing_record st name).restart_attempt.getD 0),
    last_restart_time := (start_existing_record st name).last_restart_time,
    log_path := some (env.newLogPath name) }

/-- `start_process(name)`: raises when the name has no definition, raises
when the status check still reports a pid, then runs the spawn sequence
(`env.spawn`; `none` models a raise anywhere in it) and on success writes
the new record. -/
def start_process_state (env : Env) (config : List String) (st : ProcState)
    (name : String) : Except String (ProcState × Int) :=
  if name ∉ config then .error "not found in config"
  else if (get_process_status env st name).isSome then .error "already running"
  else
    match env.spawn name with
    | none => .error "spawn failed"
    | some pid =>
      .ok (setEntry st name (.record (start_new_record env st name pid)), pid)

/-- One iteration of the `watch_and_restart_processes` loop body for one
name: skip when not eligible; otherwise increment first, then attempt the
start, catching any failure (the `try/except` of lines 671-677) so the
state after a failed attempt is the incremented one. -/
def watch_step (env : Env) (config : List String) (st : ProcState) (name : String) : ProcState :=
  if ¬ should_restart_process env st name then st
  else
    let st1 := increment_restart_attempt st name env.now
    match start_process_state env config st1 name with
    | .ok (st2, _) => st2
    | .error _ => st1

/-- `watch_and_restart_processes()`: one sweep over every configured
name. -/
def watch_and_restart_processes (env : Env) (config : List String) (st : ProcState) : ProcState :=
  config.foldl (watch_step env config) st

/-- Filesystem / lock operations a state-file primitive can perform, for
the trace model of `_load_state_file` and `_save_state_file`.  The lock
operations are in the vocabulary so that the spec's locking requirement is
expressible; the code never emits them. -/
inductive FsOp where
  | mkdirParents (path : String)
  | checkExists (path : String)
  | readFile (path : String)
  | openTrunc (path : String)
  | writeFile (path : String) (content : String)
  | rename (src : String) (dst : String)
  | lockExclusive (path : String)
  | unlock (path : String)
deriving Repr, DecidableEq

/-- `get_state_path()`: `<project_root>/local/state.json`. -/
def state_path (root : String) : String := root ++ "/local/state.json"

/-- Trace of `_load_state_file()`: an existence check, then (when the file
exists) a plain read.  No lock is taken. -/
def load_state_file_trace (root : String) (fileExists : Bool) : List FsOp :=
  if fileExists then
    [.checkExists (state_path root), .readFile (state_path root)]
  else
    [.checkExists (state_path root)]

/-- Trace of `_save_state_file(state_data)`: create the parent directory,
then `open(state_path, "w")` (which truncates the file in place) and dump
the JSON.  There is no temporary file and no rename. -/
def save_state_file_trace (root : String) (doc : String) : List FsOp :=
  [.mkdirParents (root ++ "/local"),
   .openTrunc (state_path root),
   .writeFile (state_path root) doc]

/-- Trace of the read-modify-write cycle performed by
`increment_restart_attempt`: `load_state` reads the file, then
`save_state` reads it again and `_save_state_file` writes it. -/
def increment_rmw_trace (root : String) (doc : String) (fileExists : Bool) : List FsOp :=
  load_state_file_trace root fileExists
    ++ (load_state_file_trace root fileExists ++ save_state_file_trace root doc)

/-- Modelled from the spec: "overwrites the persisted document atomically —
write to a temporary location and rename, to avoid truncated-file
corruption on crash mid-write".  A save trace is atomic for `target` when
the new content reaches `target` only through a rename from some other
path, and `target` itself is never opened for truncating write. -/
def atomic_save_spec (target : String) (ops : List FsOp) : Prop :=
  (∃ tmp, tmp ≠ target ∧ FsOp.rename tmp target ∈ ops) ∧
    FsOp.openTrunc target ∉ ops

/-- Modelled from the spec: "every read-modify-write cycle (load → mutate →
save) must be protected by an exclusive advisory lock ... held for the
duration of the cycle, not just the final write".  A cycle is
lock-protected when some lock is acquired before, and released after,
every read and write of the cycle. -/
def lock_protected_cycle (ops : List FsOp) : Prop :=
  ∃ (p : String) (pre mid post : List FsOp),
    ops = pre ++ FsOp.lockExclusive p :: (mid ++ FsOp.unlock p :: post) ∧
    (∀ op ∈ pre, ∀ q c, op ≠ .readFile q ∧ op ≠ .writeFile q c) ∧
    (∀ op ∈ post, ∀ q c, op ≠ .readFile q ∧ op ≠ .writeFile q c)

/-- The candidate filename `_ensure_unique_path` tries for a given counter:
`path.with_name(f"{path.stem}_{counter}{path.suffix}")`. -/
def counter_candidate (dir stem sfx : String) (counter : Nat) : String :=
  dir ++ "/" ++ stem ++ "_" ++ toString counter ++ sfx

/-- The `while True` loop of `_ensure_unique_path`, with explicit fuel
(`none` models running out of fuel; the Python loop terminates whenever
the filesystem is finite).  `fs` is the set of existing paths. -/
def ensure_unique_search (fs : List String) (dir stem sfx : String) :
    Nat → Nat → Option String
  | _, 0 => none
  | counter, fuel + 1 =>
    if counter_candidate dir stem sfx counter ∈ fs then
      ensure_unique_search fs dir stem sfx (counter + 1) fuel
    else some (counter_candidate dir stem sfx counter)

/-- `_ensure_unique_path(path)`: the path itself when it does not exist,
else the first free counter-suffixed candidate starting at counter 1. -/
def ensure_unique_path (fs : List String) (dir stem sfx : String) (fuel : Nat) :
    Option String :=
  if dir ++ "/" ++ stem ++ sfx ∈ fs then ensure_unique_search fs dir stem sfx 1 fuel
  else some (dir ++ "/" ++ stem ++ sfx)

/-- The pieces of `datetime.now()` that `get_new_log_path` formats:
`%Y`, `%m` and the compact `%y%m%d_%H%M%S` stamp.  Calls in the same
second format identical stamps. -/
structure LogStamp where
  year : String
  month : String
  compact : String

/-- `_get_process_log_dir(name, timestamp)`:
`<logRoot>/<name>/<year>/<month>`. -/
def proc_log_dir (logRoot name : String) (ts : LogStamp) : String :=
  logRoot ++ "/" ++ name ++ "/" ++ ts.year ++ "/" ++ ts.month

/-- `get_new_log_path(name)` at a given instant over a given set of
existing paths: builds `<dir>/<name>_<compact>.log` and resolves
collisions through `_ensure_unique_path`.  (The initial
`migrate_legacy_logs` call only moves files out of the flat log root and
is reflected in `fs`.) -/
def get_new_log_path (fs : List String) (logRoot name : String) (ts : LogStamp)
    (fuel : Nat) : Option String :=
  ensure_unique_path fs (proc_log_dir logRoot name ts) (name ++ "_" ++ ts.compact)
    ".log" fuel

/-- The bounded polling loop shared by `wait_for_process_death` and
`wait_for_port_free`: `while elapsed < timeout_seconds: if probe(): return
True; sleep(poll_interval); elapsed += poll_interval` then `return False`.
`probe k` is the outcome of the k-th check; the result pairs the returned
boolean with the number of probes performed; `none` models fuel
exhaustion (unreachable when `poll_interval > 0`). -/
def wait_poll_loop (probe : Nat → Bool) (timeout_seconds poll_interval : ℚ) :
    Nat → ℚ → Nat → Option (Bool × Nat)
  | 0, elapsed, probes =>
    if elapsed < timeout_seconds then none else some (false, probes)
  | fuel + 1, elapsed, probes =>
    if elapsed < timeout_seconds then
      if probe probes then some (true, probes + 1)
      else wait_poll_loop probe timeout_seconds poll_interval fuel
        (elapsed + poll_interval) (probes + 1)
    else some (false, probes)

/-- `wait_for_process_death(pid, timeout_seconds, poll_interval)`: polls
`not is_process_alive(pid)`; `aliveAt k` is the liveness observed at the
k-th poll. -/
def wait_for_process_death (aliveAt : Nat → Bool) (timeout_seconds poll_interval : ℚ)
    (fuel : Nat) : Option (Bool × Nat) :=
  wait_poll_loop (fun k => ! aliveAt k) timeout_seconds poll_interval fuel 0 0

/-- `wait_for_port_free(port, timeout_seconds, poll_interval)`: polls
`is_port_free(port)`; `freeAt k` is the availability observed at the k-th
poll. -/
def wait_for_port_free (freeAt : Nat → Bool) (timeout_seconds poll_interval : ℚ)
    (fuel : Nat) : Option (Bool × Nat) :=
  wait_poll_loop freeAt timeout_seconds poll_interval fuel 0 0

/-- A start time string in the weekday-month-day (US locale) ordering, as
`ps -o lstart=` prints it under `LANG=en_US`. -/
def lstartUS : String := "Mon Jan 26 10:35:12 2026"

/-- The same instant in the weekday-day-month (AU/UK locale) ordering. -/
def lstartUK : String := "Mon 26 Jan 10:35:12 2026"

/-- Environment in which pid 42 is alive and the OS reports its start time
in the US ordering. -/
def envLocale : Env :=
  { alive := fun _ => true, startTimeOf := fun _ => some lstartUS,
    now := 0, spawn := fun _ => none, newLogPath := fun _ => "" }

/-- Witness state: one record for "web", dead (pid absent), not stopped,
attempt 0, last restart at t = 0. -/
def stWaiting : ProcState :=
  setEntry (fun _ => none) "web"
    (.record { pid := none, start_time := none, explicitly_stopped := some false,
               restart_attempt := some 0, last_restart_time := some 0,
               log_path := none })

/-- Witness environment: nothing alive, clock at t = 5. -/
def envWaiting : Env :=
  { alive := fun _ => false, startTimeOf := fun _ => none, now := 5,
    spawn := fun _ => none, newLogPath := fun _ => "" }

/-- Witness state: a record with restart_attempt 5. -/
def stAttempt5 : ProcState :=
  setEntry (fun _ => none) "web"
    (.record { pid := none, start_time := none, explicitly_stopped := some false,
               restart_attempt := some 5, last_restart_time := none,
               log_path := none })

/-- Witness state: a record with restart_attempt 100. -/
def stAttempt100 : ProcState :=
  setEntry (fun _ => none) "web"
    (.record { pid := none, start_time := none, explicitly_stopped := some false,
               restart_attempt := some 100, last_restart_time := none,
               log_path := none })

/-- Witness state: a legacy bare-integer entry for "web". -/
def stLegacy : ProcState :=
  setEntry (fun _ => none) "web" (.legacyPid 7)

/-- Witness environment in which every pid is alive (so staleness cannot
come from deadness) and start times are reported. -/
def envAllAlive : Env :=
  { alive := fun _ => true, startTimeOf := fun _ => some lstartUS, now := 0,
    spawn := fun _ => none, newLogPath := fun _ => "" }

/-- Witness state: "web" running as pid 7 with a stored start time that
matches what the OS reports in `envRunning`. -/
def stRunning : ProcState :=
  setEntry (fun _ => none) "web"
    (.record { pid := some 7, start_time := some lstartUS,
               explicitly_stopped := some false, restart_attempt := some 0,
               last_restart_time := none, log_path := none })

/-- Witness environment for `stRunning`: pid 7 alive with the stored start
time. -/
def envRunning : Env :=
  { alive := fun _ => true, startTimeOf := fun _ => some lstartUS, now := 0,
    spawn := fun _ => none, newLogPath := fun _ => "" }

/-- Witness state for the watch sweep: "web" and "api" both dead with no
restart bookkeeping yet. -/
def stSweep : ProcState :=
  setEntry
    (setEntry (fun _ => none) "web"
      (.record { pid := none, start_time := none, explicitly_stopped := some false,
                 restart_attempt := some 0, last_restart_time := none,
                 log_path := none }))
    "api"
    (.record { pid := none, start_time := none, explicitly_stopped := some false,
               restart_attempt := some 0, last_restart_time := none,
               log_path := none })

/-- Witness environment for the watch sweep: spawning "web" fails,
spawning "api" yields pid 99. -/
def envSweep : Env :=
  { alive := fun _ => false, startTimeOf := fun _ => some lstartUS, now := 20,
    spawn := fun n => if n = "api" then some 99 else none,
    newLogPath := fun n => "logs/" ++ n ++ ".log" }

/-! ## Shared helper lemmas -/

theorem setEntry_self (st : ProcState) (name : String) (e : ProcEntry) :
    setEntry st name e name = some e := by
  simp [setEntry]

theorem setEntry_ne (st : ProcState) (name : String) (e : ProcEntry) (m : String)
    (h : m ≠ name) : setEntry st name e m = st m := by
  simp [setEntry, h]

theorem is_explicitly_stopped_congr {st1 st2 : ProcState} (name : String)
    (h : st1 name = st2 name) :
    is_explicitly_stopped st1 name = is_explicitly_stopped st2 name := by
  unfold is_explicitly_stopped
  rw [h]

theorem get_process_status_congr (env : Env) {st1 st2 : ProcState} (name : String)
    (h : st1 name = st2 name) :
    get_process_status env st1 name = get_process_status env st2 name := by
  unfold get_process_status
  rw [h]

theorem get_last_restart_time_congr {st1 st2 : ProcState} (name : String)
    (h : st1 name = st2 name) :
    get_last_restart_time st1 name = get_last_restart_time st2 name := by
  unfold get_last_restart_time
  rw [h]

theorem get_restart_backoff_congr {st1 st2 : ProcState} (name : String)
    (h : st1 name = st2 name) :
    get_restart_backoff_seconds st1 name = get_restart_backoff_seconds st2 name := by
  unfold get_restart_backoff_seconds
  rw [h]

theorem restart_attempt_of_congr {st1 st2 : ProcState} (name : String)
    (h : st1 name = st2 name) :
    restart_attempt_of st1 name = restart_attempt_of st2 name := by
  unfold restart_attempt_of
  rw [h]

theorem should_restart_congr (env : Env) {st1 st2 : ProcState} (name : String)
    (h : st1 name = st2 name) :
    should_restart_process env st1 name = should_restart_process env st2 name := by
  unfold should_restart_process
  rw [is_explicitly_stopped_congr name h, get_process_status_congr env name h,
    get_last_restart_time_congr name h, get_restart_backoff_congr name h]

theorem start_existing_congr {st1 st2 : ProcState} (name : String)
    (h : st1 name = st2 name) :
    start_existing_record st1 name = start_existing_record st2 name := by
  unfold start_existing_record
  rw [h]

theorem should_restart_true_parts {env : Env} {st : ProcState} {name : String}
    (h : should_restart_process env st name = true) :
    is_explicitly_stopped st name = false ∧ get_process_status env st name = none := by
  by_cases h1 : is_explicitly_stopped st name = true
  · simp [should_restart_process, h1] at h
  · by_cases h2 : (get_process_status env st name).isSome = true
    · simp [should_restart_process, h1, h2] at h
    · exact ⟨by simpa using h1, by simpa [Option.not_isSome_iff_eq_none] using h2⟩

theorem increment_other (st : ProcState) (name : String) (now : ℚ) (m : String)
    (h : m ≠ name) :
    increment_restart_attempt st name now m = st m := by
  unfold increment_restart_attempt
  cases st name <;> simp [setEntry, h]

theorem increment_bookkeeping (st : ProcState) (name : String) (now : ℚ) :
    restart_attempt_of (increment_restart_attempt st name now) name
        = restart_attempt_of st name + 1
  ∧ get_last_restart_time (increment_restart_attempt st name now) name = some now := by
  unfold restart_attempt_of get_last_restart_time increment_restart_attempt
  cases h : st name with
  | none => simp [setEntry_self]
  | some e => cases e with
    | legacyPid p => simp [setEntry_self]
    | record r => simp [setEntry_self]

theorem increment_status_none (env : Env) (st : ProcState) (name : String) (now : ℚ)
    (h : get_process_status env st name = none) :
    get_process_status env (increment_restart_attempt st name now) name = none := by
  unfold increment_restart_attempt
  cases hsn : st name with
  | none => simp [get_process_status, setEntry_self, is_our_process]
  | some e => cases e with
    | legacyPid p => simp [get_process_status, setEntry_self, is_our_process]
    | record r =>
      cases hp : r.pid with
      | none => simp [get_process_status, setEntry_self, hp]
      | some p =>
        cases hio : is_our_process env p r.start_time with
        | false => simp [get_process_status, setEntry_self, hp, hio]
        | true =>
          exfalso
          have hsome : get_process_status env st name = some p := by
            simp [get_process_status, hsn, hp, hio]
          rw [h] at hsome
          exact Option.noConfusion hsome

theorem increment_at_congr {st1 st2 : ProcState} (name : String) (now : ℚ)
    (h : st1 name = st2 name) :
    increment_restart_attempt st1 name now name
      = increment_restart_attempt st2 name now name := by
  simp only [increment_restart_attempt, setEntry_self, h]

theorem start_eval_notin (env : Env) (config : List String) (st : ProcState)
    (name : String) (hc : name ∉ config) :
    start_process_state env config st name = .error "not found in config" := by
  simp [start_process_state, hc]

theorem start_eval_running (env : Env) (config : List String) (st : ProcState)
    (name : String) (hc : name ∈ config)
    (hst : (get_process_status env st name).isSome = true) :
    start_process_state env config st name = .error "already running" := by
  unfold start_process_state
  rw [if_neg (not_not_intro hc), if_pos hst]

theorem start_eval_spawn_fail (env : Env) (config : List String) (st : ProcState)
    (name : String) (hc : name ∈ config)
    (hst : get_process_status env st name = none) (hsp : env.spawn name = none) :
    start_process_state env config st name = .error "spawn failed" := by
  unfold start_process_state
  rw [if_neg (not_not_intro hc), if_neg (by simp [hst]), hsp]

theorem start_eval_ok (env : Env) (config : List String) (st : ProcState)
    (name : String) (pid : Int) (hc : name ∈ config)
    (hst : get_process_status env st name = none) (hsp : env.spawn name = some pid) :
    start_process_state env config st name
      = .ok (setEntry st name (.record (start_new_record env st name pid)), pid) := by
  unfold start_process_state
  rw [if_neg (not_not_intro hc), if_neg (by simp [hst]), hsp]

theorem start_ok_inv {env : Env} {config : List String} {st : ProcState}
    {name : String} {st2 : ProcState} {p : Int}
    (h : start_process_state env config st name = .ok (st2, p)) :
    st2 = setEntry st name (.record (start_new_record env st name p)) := by
  unfold start_process_state at h
  by_cases hc : name ∉ config
  · rw [if_pos hc] at h
    exact absurd h (by simp)
  · rw [if_neg hc] at h
    by_cases hs : (get_process_status env st name).isSome = true
    · rw [if_pos hs] at h
      exact absurd h (by simp)
    · rw [if_neg hs] at h
      cases hsp : env.spawn name with
      | none =>
        rw [hsp] at h
        exact absurd h (by simp)
      | some q =>
        rw [hsp] at h
        simp only [Except.ok.injEq, Prod.mk.injEq] at h
        obtain ⟨h1, h2⟩ := h
        subst h2
        exact h1.symm

theorem watch_step_other (env : Env) (config : List String) (st : ProcState)
    (name m : String) (hm : m ≠ name) :
    watch_step env config st name m = st m := by
  unfold watch_step
  by_cases hs : should_restart_process env st name = true
  · rw [if_neg (by simp [hs])]
    cases hst : start_process_state env config (increment_restart_attempt st name env.now) name with
    | error e =>
      simp only [hst]
      exact increment_other st name env.now m hm
    | ok v =>
      obtain ⟨st2, p⟩ := v
      simp only [hst]
      rw [start_ok_inv hst, setEntry_ne _ _ _ _ hm]
      exact increment_other st name env.now m hm
  · rw [if_pos (by simpa using hs)]

theorem watch_step_skip (env : Env) (config : List String) (st : ProcState)
    (name : String) (hs : should_restart_process env st name = false) :
    watch_step env config st name = st := by
  unfold watch_step
  rw [if_pos (by simp [hs])]

theorem watch_step_at_congr (env : Env) (config : List String)
    {st1 st2 : ProcState} (name : String) (h : st1 name = st2 name) :
    (watch_step env config st1 name) name = (watch_step env config st2 name) name := by
  unfold watch_step
  rw [should_restart_congr env name h]
  by_cases hs : should_restart_process env st2 name = true
  · rw [if_neg (by simp [hs]), if_neg (by simp [hs])]
    have hinc : increment_restart_attempt st1 name env.now name
        = increment_restart_attempt st2 name env.now name := increment_at_congr name env.now h
    by_cases hc : name ∈ config
    · by_cases hrun : (get_process_status env (increment_restart_attempt st2 name env.now) name).isSome = true
      · have hrun1 : (get_process_status env (increment_restart_attempt st1 name env.now) name).isSome = true := by
          rw [get_process_status_congr env name hinc]; exact hrun
        rw [start_eval_running env config _ name hc hrun,
          start_eval_running env config _ name hc hrun1]
        exact hinc
      · have hnone2 : get_process_status env (increment_restart_attempt st2 name env.now) name = none := by
          simpa [Option.not_isSome_iff_eq_none] using hrun
        have hnone1 : get_process_status env (increment_restart_attempt st1 name env.now) name = none := by
          rw [get_process_status_congr env name hinc]; exact hnone2
        cases hsp : env.spawn name with
        | none =>
          rw [start_eval_spawn_fail env config _ name hc hnone2 hsp,
            start_eval_spawn_fail env config _ name hc hnone1 hsp]
          exact hinc
        | some pid =>
          rw [start_eval_ok env config _ name pid hc hnone2 hsp,
            start_eval_ok env config _ name pid hc hnone1 hsp]
          simp only [setEntry_self]
          unfold start_new_record
          rw [start_existing_congr name hinc]
    · rw [start_eval_notin env config _ name hc, start_eval_notin env config _ name hc]
      exact hinc
  · rw [if_pos (by simpa using hs), if_pos (by simpa using hs)]
    exact h

theorem sweep_other (env : Env) (config : List String) :
    ∀ (l : List String) (st : ProcState) (m : String), m ∉ l →
      (l.foldl (watch_step env config) st) m = st m := by
  intro l
  induction l with
  | nil => intro st m _; rfl
  | cons h t ih =>
    intro st m hm
    rw [List.mem_cons] at hm
    push_neg at hm
    obtain ⟨h1, h2⟩ := hm
    simp only [List.foldl_cons]
    rw [ih _ _ h2]
    exact watch_step_other env config st h m h1

theorem watch_sweep_entry (env : Env) (config : List String) :
    ∀ (l : List String) (st : ProcState) (n : String), l.Nodup → n ∈ l →
      (l.foldl (watch_step env config) st) n = (watch_step env config st n) n := by
  intro l
  induction l with
  | nil => intro st n _ hmem; simp at hmem
  | cons h t ih =>
    intro st n hnd hmem
    obtain ⟨hnotin, hnd'⟩ := List.nodup_cons.mp hnd
    simp only [List.foldl_cons]
    rcases List.mem_cons.mp hmem with he | hmem'
    · subst he
      exact sweep_other env config t (watch_step env config st n) n hnotin
    · have hne : n ≠ h := fun hh => hnotin (hh ▸ hmem')
      have hentry : watch_step env config st h n = st n :=
        watch_step_other env config st h n hne
      rw [ih (watch_step env config st h) n hnd' hmem']
      exact watch_step_at_congr env config n hentry

theorem watch_sweep_preserves_stopped (env : Env) (config : List String) :
    ∀ (l : List String) (st : ProcState) (n : String),
      is_explicitly_stopped st n = true →
      (l.foldl (watch_step env config) st) n = st n := by
  intro l
  induction l with
  | nil => intro st n _; rfl
  | cons h t ih =>
    intro st n hstop
    simp only [List.foldl_cons]
    by_cases he : h = n
    · subst he
      have hs : should_restart_process env st h = false := by
        simp [should_restart_process, hstop]
      rw [watch_step_skip env config st h hs]
      exact ih st h hstop
    · have hne : n ≠ h := fun hh => he hh.symm
      have hentry : watch_step env config st h n = st n :=
        watch_step_other env config st h n hne
      have hstop' : is_explicitly_stopped (watch_step env config st h) n = true := by
        rw [is_explicitly_stopped_congr n hentry]; exact hstop
      exact (ih _ n hstop').trans hentry

theorem ticks_preserve_stopped :
    ∀ (ticks : List (Env × List String)) (st : ProcState) (n : String),
      is_explicitly_stopped st n = true →
      (ticks.foldl (fun s t => watch_and_restart_processes t.1 t.2 s) st) n = st n := by
  intro ticks
  induction ticks with
  | nil => intro st n _; rfl
  | cons tick rest ih =>
    intro st n hstop
    simp only [List.foldl_cons]
    have hentry : watch_and_restart_processes tick.1 tick.2 st n = st n :=
      watch_sweep_preserves_stopped tick.1 tick.2 tick.2 st n hstop
    have hstop' : is_explicitly_stopped (watch_and_restart_processes tick.1 tick.2 st) n = true := by
      rw [is_explicitly_stopped_congr n hentry]; exact hstop
    exact (ih _ n hstop').trans hentry

theorem start_existing_after_increment (st : ProcState) (name : String) (now : ℚ) :
    (start_existing_record (increment_restart_attempt st name now) name).restart_attempt.getD 0
        = restart_attempt_of st name + 1
  ∧ (start_existing_record (increment_restart_attempt st name now) name).last_restart_time
        = some now := by
  unfold start_existing_record increment_restart_attempt restart_attempt_of
  cases h : st name with
  | none => simp [setEntry_self]
  | some e => cases e with
    | legacyPid p => simp [setEntry_self]
    | record r => simp [setEntry_self]

theorem ensure_unique_search_spec (fs : List String) (dir stem sfx : String) :
    ∀ (fuel counter : Nat) (r : String),
      ensure_unique_search fs dir stem sfx counter fuel = some r →
      r ∉ fs ∧ ∃ k : Nat, counter ≤ k ∧ r = counter_candidate dir stem sfx k := by
  intro fuel
  induction fuel with
  | zero => intro counter r h; simp [ensure_unique_search] at h
  | succ n ih =>
    intro counter r h
    unfold ensure_unique_search at h
    by_cases hc : counter_candidate dir stem sfx counter ∈ fs
    · rw [if_pos hc] at h
      obtain ⟨h1, k, hk, hr⟩ := ih (counter + 1) r h
      exact ⟨h1, k, by omega, hr⟩
    · rw [if_neg hc] at h
      obtain rfl : counter_candidate dir stem sfx counter = r := by
        simpa using h
      exact ⟨hc, counter, le_refl counter, rfl⟩

/-! ## Claim theorems -/

/-- C1: for every process name, `should_restart_process` returns false when
the record is marked explicitly stopped; otherwise false when the status
check reports a live, identity-confirmed pid; otherwise true when no last
restart time is recorded; otherwise true exactly when the elapsed time
since the last restart is at least the computed backoff, and false when it
is strictly less. -/
theorem should_restart_process_cases (env : Env) (st : ProcState) (name : String) :
    (is_explicitly_stopped st name = true →
      should_restart_process env st name = false)
  ∧ (is_explicitly_stopped st name = false →
      ∀ p : Int, get_process_status env st name = some p →
        should_restart_process env st name = false)
  ∧ (is_explicitly_stopped st name = false →
      get_process_status env st name = none →
      get_last_restart_time st name = none →
        should_restart_process env st name = true)
  ∧ (∀ last : ℚ, is_explicitly_stopped st name = false →
      get_process_status env st name = none →
      get_last_restart_time st name = some last →
        (should_restart_process env st name = true ↔
          (get_restart_backoff_seconds st name : ℚ) ≤ env.now - last)
      ∧ (env.now - last < (get_restart_backoff_seconds st name : ℚ) →
          should_restart_process env st name = false)) := by
  refine ⟨?_, ?_, ?_, ?_⟩
  · intro h
    simp [should_restart_process, h]
  · intro h p hp
    simp [should_restart_process, h, hp]
  · intro h1 h2 h3
    simp [should_restart_process, h1, h2, h3]
  · intro last h1 h2 h3
    constructor
    · simp [should_restart_process, h1, h2, h3]
    · intro hlt
      simp [should_restart_process, h1, h2, h3, not_le.mpr hlt]

/-- C1 witness: in `stWaiting` (dead record, attempt 0, last restart at 0)
with the clock at 5, the elapsed time exceeds the 1-second backoff and the
decision is to restart. -/
theorem should_restart_process_cases_witness :
    should_restart_process envWaiting stWaiting "web" = true := by
  have h := (should_restart_process_cases envWaiting stWaiting "web").2.2.2 0
    (by decide) (by decide) (by decide)
  exact h.1.mpr (by norm_num [envWaiting, get_restart_backoff_seconds, stWaiting,
    setEntry, max_backoff])

/-- C2: for every record entry the backoff is `min(2 ^ restart_attempt,
7200)` seconds, hence capped at 7200 and monotonically non-decreasing in
the attempt counter. -/
theorem get_restart_backoff_formula (st : ProcState) (name : String) (r : ProcRecord)
    (h : st name = some (.record r)) :
    get_restart_backoff_seconds st name = min (2 ^ r.restart_attempt.getD 0) 7200
  ∧ get_restart_backoff_seconds st name ≤ 7200
  ∧ ∀ (st2 : ProcState) (r2 : ProcRecord), st2 name = some (.record r2) →
      r.restart_attempt.getD 0 ≤ r2.restart_attempt.getD 0 →
      get_restart_backoff_seconds st name ≤ get_restart_backoff_seconds st2 name := by
  have hb : get_restart_backoff_seconds st name
      = min (2 ^ r.restart_attempt.getD 0) 7200 := by
    simp only [get_restart_backoff_seconds, h]
    norm_num [max_backoff]
  refine ⟨hb, ?_, ?_⟩
  · rw [hb]
    exact min_le_right _ _
  · intro st2 r2 h2 hle
    have hb2 : get_restart_backoff_seconds st2 name
        = min (2 ^ r2.restart_attempt.getD 0) 7200 := by
      simp only [get_restart_backoff_seconds, h2]
      norm_num [max_backoff]
    rw [hb, hb2]
    exact min_le_min (Nat.pow_le_pow_right (by norm_num) hle) le_rfl

/-- C2 witness: attempt 5 gives 32 seconds, attempt 100 gives the 7200
cap, and the backoff is monotone between them (attempts 0 and 1 give 1 and
2 seconds by the same formula). -/
theorem get_restart_backoff_formula_witness :
    get_restart_backoff_seconds stAttempt5 "web" = 32
  ∧ get_restart_backoff_seconds stAttempt100 "web" = 7200
  ∧ get_restart_backoff_seconds stAttempt5 "web"
      ≤ get_restart_backoff_seconds stAttempt100 "web" := by
  have h5 := get_restart_backoff_formula stAttempt5 "web"
    { pid := none, start_time := none, explicitly_stopped := some false,
      restart_attempt := some 5, last_restart_time := none, log_path := none }
    (by decide)
  refine ⟨h5.1.trans (by norm_num), by decide, ?_⟩
  exact h5.2.2 stAttempt100
    { pid := none, start_time := none, explicitly_stopped := some false,
      restart_attempt := some 100, last_restart_time := none, log_path := none }
    (by decide) (by decide)

/-- C3: a legacy bare-integer entry, or a record entry without a stored
start time, always makes `get_process_status` report absent, whatever the
OS says about the recorded pid (in particular even when it is alive). -/
theorem stale_entries_report_none (env : Env) (st : ProcState) (name : String) :
    (∀ p : Int, st name = some (.legacyPid p) →
      get_process_status env st name = none)
  ∧ ∀ r : ProcRecord, st name = some (.record r) → r.start_time = none →
      get_process_status env st name = none := by
  constructor
  · intro p hp
    simp [get_process_status, hp, is_our_process]
  · intro r hr hst
    cases hp : r.pid with
    | none => simp [get_process_status, hr, hp]
    | some p => simp [get_process_status, hr, hp, hst, is_our_process]

/-- C3 witness: in `envAllAlive` every pid is alive, yet the legacy entry
for "web" (bare pid 7) reports no status. -/
theorem stale_entries_report_none_witness :
    envAllAlive.alive 7 = true
  ∧ get_process_status envAllAlive stLegacy "web" = none :=
  ⟨rfl, (stale_entries_report_none envAllAlive stLegacy "web").1 7 (by decide)⟩

/-- C4 (code bug): `is_our_process` compares the live start time with the
stored one by RAW string equality, with no parsing into a canonical
instant.  With the OS reporting the weekday-month-day ordering, the very
same instant stored in the weekday-day-month ordering is rejected, while
the identical string is accepted — the two common English locale
date-orderings of one instant do NOT compare equal. -/
theorem is_our_process_compares_raw_strings :
    is_our_process envLocale 42 (some lstartUK) = false
  ∧ is_our_process envLocale 42 (some lstartUS) = true := by
  decide

/-- C5 (counterexample): the save trace of `_save_state_file` is not an
atomic temp-file-and-rename write — it opens the state file itself for
truncating write. -/
theorem save_state_file_not_atomic :
    ¬ atomic_save_spec (state_path "/repo") (save_state_file_trace "/repo" "doc") := by
  rintro ⟨⟨tmp, -, hmem⟩, -⟩
  simp [save_state_file_trace, state_path] at hmem

/-- C5 (amended): `_save_state_file` overwrites the state file in place:
it truncates the file itself and writes the new content directly, and
performs no rename, so a crash mid-write can leave a truncated file. -/
theorem save_state_file_writes_in_place (root doc : String) :
    FsOp.openTrunc (state_path root) ∈ save_state_file_trace root doc
  ∧ FsOp.writeFile (state_path root) doc ∈ save_state_file_trace root doc
  ∧ ∀ src dst : String, FsOp.rename src dst ∉ save_state_file_trace root doc := by
  refine ⟨by simp [save_state_file_trace], by simp [save_state_file_trace], ?_⟩
  intro src dst h
  simp [save_state_file_trace] at h

/-- C5 witness at a concrete root and document. -/
theorem save_state_file_writes_in_place_witness :
    FsOp.openTrunc (state_path "/repo") ∈ save_state_file_trace "/repo" "doc"
  ∧ FsOp.rename "/tmp/a" (state_path "/repo") ∉ save_state_file_trace "/repo" "doc" :=
  ⟨(save_state_file_writes_in_place "/repo" "doc").1,
   (save_state_file_writes_in_place "/repo" "doc").2.2 "/tmp/a" (state_path "/repo")⟩

/-- C8: two log-path creations for the same name within the same second
(identical `LogStamp`, so identical directory and base filename) return
distinct paths once the first path exists on disk — the second result is
the base name with a numeric counter suffix (counter at least 1) and in
particular differs from the first. -/
theorem get_new_log_path_same_second_distinct
    (fs : List String) (logRoot name : String) (ts : LogStamp) (fuel1 fuel2 : Nat)
    (p1 p2 : String)
    (h1 : get_new_log_path fs logRoot name ts fuel1 = some p1)
    (h2 : get_new_log_path (p1 :: fs) logRoot name ts fuel2 = some p2) :
    p2 ≠ p1 ∧ ∃ c : Nat, 1 ≤ c ∧
      p2 = counter_candidate (proc_log_dir logRoot name ts)
        (name ++ "_" ++ ts.compact) ".log" c := by
  have hbase : proc_log_dir logRoot name ts ++ "/" ++ (name ++ "_" ++ ts.compact)
      ++ ".log" ∈ p1 :: fs := by
    unfold get_new_log_path ensure_unique_path at h1
    by_cases hb : proc_log_dir logRoot name ts ++ "/" ++ (name ++ "_" ++ ts.compact)
        ++ ".log" ∈ fs
    · exact List.mem_cons_of_mem _ hb
    · rw [if_neg hb] at h1
      obtain rfl : proc_log_dir logRoot name ts ++ "/" ++ (name ++ "_" ++ ts.compact)
          ++ ".log" = p1 := by simpa using h1
      exact List.mem_cons_self _ _
  unfold get_new_log_path ensure_unique_path at h2
  rw [if_pos hbase] at h2
  obtain ⟨hnotin, c, hc, hr⟩ :=
    ensure_unique_search_spec (p1 :: fs) (proc_log_dir logRoot name ts)
      (name ++ "_" ++ ts.compact) ".log" fuel2 1 p2 h2
  exact ⟨fun he => hnotin (he ▸ List.mem_cons_self p1 fs), c, hc, hr⟩

/-- C8 witness: over an empty filesystem the first call for "web" at stamp
260112_103500 yields the base path; once that file exists, the second call
in the same second yields the `_1`-suffixed path, which differs. -/
theorem get_new_log_path_same_second_distinct_witness :
    ("logs/web/2026/01/web_260112_103500_1.log" : String)
        ≠ "logs/web/2026/01/web_260112_103500.log"
  ∧ ∃ c : Nat, 1 ≤ c ∧
      ("logs/web/2026/01/web_260112_103500_1.log" : String)
        = counter_candidate (proc_log_dir "logs" "web" ⟨"2026", "01", "260112_103500"⟩)
            ("web" ++ "_" ++ "260112_103500") ".log" c :=
  get_new_log_path_same_second_distinct [] "logs" "web" ⟨"2026", "01", "260112_103500"⟩
    3 3 "logs/web/2026/01/web_260112_103500.log" "logs/web/2026/01/web_260112_103500_1.log"
    (by decide) (by decide)

/-- C9 (counterexample): the read-modify-write cycle of
`increment_restart_attempt` acquires no lock at all, so it is not
protected by an exclusive advisory lock held for the duration of the
cycle. -/
theorem increment_cycle_not_lock_protected :
    ¬ lock_protected_cycle (increment_rmw_trace "/repo" "doc" true) := by
  rintro ⟨p, pre, mid, post, heq, -, -⟩
  have hmem : FsOp.lockExclusive p ∈ increment_rmw_trace "/repo" "doc" true := by
    rw [heq]
    simp
  simp [increment_rmw_trace, load_state_file_trace, save_state_file_trace,
    state_path] at hmem

/-- C9 (amended): a read-modify-write cycle on the state document is a
plain sequence of unprotected file operations — it reads and writes the
state file but never acquires or releases any lock, so two concurrent
callers can lose an update. -/
theorem increment_cycle_unlocked (root doc : String) (b : Bool) :
    FsOp.readFile (state_path root) ∈ increment_rmw_trace root doc true
  ∧ FsOp.writeFile (state_path root) doc ∈ increment_rmw_trace root doc b
  ∧ ∀ p : String, FsOp.lockExclusive p ∉ increment_rmw_trace root doc b
      ∧ FsOp.unlock p ∉ increment_rmw_trace root doc b := by
  refine ⟨by simp [increment_rmw_trace, load_state_file_trace, save_state_file_trace],
    ?_, ?_⟩
  · cases b <;>
      simp [increment_rmw_trace, load_state_file_trace, save_state_file_trace]
  · intro p
    constructor <;> intro h <;> cases b <;>
      simp [increment_rmw_trace, load_state_file_trace, save_state_file_trace] at h

/-- C9 witness at a concrete root, document and lock path. -/
theorem increment_cycle_unlocked_witness :
    FsOp.readFile (state_path "/repo") ∈ increment_rmw_trace "/repo" "doc" true
  ∧ FsOp.lockExclusive "/repo/lockfile" ∉ increment_rmw_trace "/repo" "doc" true :=
  ⟨(increment_cycle_unlocked "/repo" "doc" true).1,
   ((increment_cycle_unlocked "/repo" "doc" true).2.2 "/repo/lockfile").1⟩

/-- C10: with a non-positive timeout both polling waiters return false
immediately and perform zero probes, even if the awaited condition (dead
process, free port) would hold at the first probe. -/
theorem wait_nonpositive_timeout (aliveAt freeAt : Nat → Bool)
    (timeout_seconds poll_interval : ℚ) (fuel : Nat) (h : timeout_seconds ≤ 0) :
    wait_for_process_death aliveAt timeout_seconds poll_interval fuel = some (false, 0)
  ∧ wait_for_port_free freeAt timeout_seconds poll_interval fuel = some (false, 0) := by
  have hnl : ¬ ((0 : ℚ) < timeout_seconds) := not_lt.mpr h
  cases fuel <;>
    simp [wait_for_process_death, wait_for_port_free, wait_poll_loop, hnl]

/-- C10 witness: timeout 0 with a process that is already dead and a port
that is already free still returns false with zero probes. -/
theorem wait_nonpositive_timeout_witness :
    wait_for_process_death (fun _ => false) 0 (1 / 10) 5 = some (false, 0)
  ∧ wait_for_port_free (fun _ => true) 0 (1 / 10) 5 = some (false, 0) :=
  wait_nonpositive_timeout (fun _ => false) (fun _ => true) 0 (1 / 10) 5 le_rfl

/-- C6: in one watch sweep over distinct configured names, an eligible
name whose start attempt fails ends the sweep with `restart_attempt`
incremented and `last_restart_time` stamped with the current time (the
increment happens before the attempt and survives the failure), and the
failure does not abort the sweep: another eligible name whose spawn
succeeds ends the sweep restarted, its own bookkeeping incremented and
preserved through the start. -/
theorem watch_sweep_bookkeeping
    (env : Env) (config : List String) (st : ProcState) (name m : String) (pidM : Int)
    (hnd : config.Nodup) (hn : name ∈ config) (hm : m ∈ config)
    (heligN : should_restart_process env st name = true)
    (hfailN : env.spawn name = none)
    (heligM : should_restart_process env st m = true)
    (hokM : env.spawn m = some pidM) :
    restart_attempt_of (watch_and_restart_processes env config st) name
        = restart_attempt_of st name + 1
  ∧ get_last_restart_time (watch_and_restart_processes env config st) name
        = some env.now
  ∧ (watch_and_restart_processes env config st) m
      = some (.record
          { pid := some pidM, start_time := env.startTimeOf pidM,
            explicitly_stopped := some false,
            restart_attempt := some (restart_attempt_of st m + 1),
            last_restart_time := some env.now,
            log_path := some (env.newLogPath m) }) := by
  have hfoldN : (watch_and_restart_processes env config st) name
      = (watch_step env config st name) name :=
    watch_sweep_entry env config config st name hnd hn
  have hfoldM : (watch_and_restart_processes env config st) m
      = (watch_step env config st m) m :=
    watch_sweep_entry env config config st m hnd hm
  obtain ⟨-, hstatN⟩ := should_restart_true_parts heligN
  have hstat1N := increment_status_none env st name env.now hstatN
  have hstepN : (watch_step env config st name) name
      = increment_restart_attempt st name env.now name := by
    unfold watch_step
    rw [if_neg (by simp [heligN]),
      start_eval_spawn_fail env config _ name hn hstat1N hfailN]
  obtain ⟨-, hstatM⟩ := should_restart_true_parts heligM
  have hstat1M := increment_status_none env st m env.now hstatM
  have hstepM : (watch_step env config st m) m
      = some (.record (start_new_record env
          (increment_restart_attempt st m env.now) m pidM)) := by
    unfold watch_step
    rw [if_neg (by simp [heligM]),
      start_eval_ok env config _ m pidM hm hstat1M hokM]
    exact setEntry_self _ _ _
  have hentryN : (watch_and_restart_processes env config st) name
      = increment_restart_attempt st name env.now name := hfoldN.trans hstepN
  have hentryM := hfoldM.trans hstepM
  have hinc := increment_bookkeeping st name env.now
  refine ⟨?_, ?_, ?_⟩
  · rw [restart_attempt_of_congr name hentryN]
    exact hinc.1
  · rw [get_last_restart_time_congr name hentryN]
    exact hinc.2
  · rw [hentryM]
    have hex := start_existing_after_increment st m env.now
    unfold start_new_record
    rw [hex.1, hex.2]

/-- C6 witness: sweeping `["web", "api"]` in `envSweep` (both dead and
eligible, spawning "web" raises, spawning "api" yields pid 99) leaves
"web" with attempt 1 stamped at time 20 and restarts "api" as pid 99. -/
theorem watch_sweep_bookkeeping_witness :
    restart_attempt_of (watch_and_restart_processes envSweep ["web", "api"] stSweep)
        "web" = 1
  ∧ get_last_restart_time (watch_and_restart_processes envSweep ["web", "api"] stSweep)
        "web" = some 20
  ∧ (watch_and_restart_processes envSweep ["web", "api"] stSweep) "api"
      = some (.record
          { pid := some 99, start_time := some lstartUS,
            explicitly_stopped := some false, restart_attempt := some 1,
            last_restart_time := some 20, log_path := some "logs/api.log" }) := by
  have h := watch_sweep_bookkeeping envSweep ["web", "api"] stSweep "web" "api" 99
    (by decide) (by decide) (by decide) (by decide) (by decide) (by decide) (by decide)
  refine ⟨?_, ?_, ?_⟩
  · rw [h.1]
    decide
  · exact h.2.1
  · rw [h.2.2]
    decide

/-- C7: after `stop_process` succeeds on a running process with
`mark_explicit`, the record carries `explicitly_stopped = true`; from then
on `should_restart_process` is false in every environment (including one
where the process has died), any number of watch sweeps leaves the entry
untouched (the policy engine never auto-restarts it), and only a
successful manual start writes a record with the flag cleared. -/
theorem stop_process_blocks_restart
    (env : Env) (st : ProcState) (name : String) (pid : Int)
    (hrun : get_process_status env st name = some pid) :
    is_explicitly_stopped (stop_process_mark st name) name = true
  ∧ (∀ env2 : Env, should_restart_process env2 (stop_process_mark st name) name = false)
  ∧ (∀ ticks : List (Env × List String),
      (ticks.foldl (fun s t => watch_and_restart_processes t.1 t.2 s)
        (stop_process_mark st name)) name = (stop_process_mark st name) name)
  ∧ ∀ (env2 : Env) (config : List String) (st2 st3 : ProcState) (p : Int),
      start_process_state env2 config st2 name = .ok (st3, p) →
      is_explicitly_stopped st3 name = false := by
  have hstop : is_explicitly_stopped (stop_process_mark st name) name = true := by
    cases hsn : st name with
    | none =>
      exfalso
      simp [get_process_status, hsn] at hrun
    | some e => cases e with
      | legacyPid q =>
        simp [stop_process_mark, hsn, is_explicitly_stopped, setEntry_self]
      | record r =>
        simp [stop_process_mark, hsn, is_explicitly_stopped, setEntry_self]
  refine ⟨hstop, ?_, ?_, ?_⟩
  · intro env2
    simp [should_restart_process, hstop]
  · intro ticks
    exact ticks_preserve_stopped ticks _ name hstop
  · intro env2 config st2 st3 p h
    rw [start_ok_inv h]
    simp [is_explicitly_stopped, setEntry_self, start_new_record]

/-- C7 witness: stopping the running "web" of `stRunning` marks it
explicitly stopped, and in `envWaiting` — where the process is dead —
the restart decision is still false. -/
theorem stop_process_blocks_restart_witness :
    is_explicitly_stopped (stop_process_mark stRunning "web") "web" = true
  ∧ should_restart_process envWaiting (stop_process_mark stRunning "web") "web"
      = false := by
  have h := stop_process_blocks_restart envRunning stRunning "web" 7 (by decide)
  exact ⟨h.1, h.2.1 envWaiting⟩

end DaemonManager
